import Mathlib

/-!
Verification of the core logic of the `intersystems-objectscript-mcp` server
(`src/index.ts`): the tabular normalizer (`formatMarkdownTable` and its
helpers), the diagnostic summarizer (`extractVersionInfo`), the candidate
resolver (`buildRoutineDocCandidates`) and the bounded retry/fallback walk of
the `get_iris_routine` tool handler.

JSON values are modelled by an inductive `Json` type; JavaScript strings are
modelled by Lean `String` (a list of unicode scalar values; the JS functions
under study only ever slice at ASCII boundaries in the proofs below, so the
UTF-16 code-unit/scalar distinction does not affect any stated result).
Numbers are modelled by `Int`: the endpoints under study only feed integral
numbers through the cell stringifier, and no claim depends on float formatting.
-/

namespace IrisMcp

/-! ## JavaScript string primitives (trim, \s, replaceAll, join) -/

/-- The character class of JavaScript's `\s` (and of `String.prototype.trim`):
WhiteSpace ∪ LineTerminator. -/
def jsWs (c : Char) : Bool :=
  c == ' ' || c == '\t' || c == '\n' || c == '\r' || c == '\x0b' || c == '\x0c' ||
  c == '\u00A0' || c == '\u1680' || (0x2000 ≤ c.toNat && c.toNat ≤ 0x200A) ||
  c == '\u2028' || c == '\u2029' || c == '\u202F' || c == '\u205F' ||
  c == '\u3000' || c == '\uFEFF'

/-- Left trim on character lists. -/
def trimLeftData (l : List Char) : List Char := l.dropWhile jsWs

/-- Right trim on character lists. -/
def trimRightData (l : List Char) : List Char := (l.reverse.dropWhile jsWs).reverse

/-- `String.prototype.trim`: drop leading and trailing whitespace. -/
def jsTrim (s : String) : String := String.mk (trimRightData (trimLeftData s.data))

/-- `Array.prototype.join(sep)` on a list of strings (all elements already
strings, so no element conversion is needed). -/
def joinWith (sep : String) : List String → String
  | [] => ""
  | [x] => x
  | x :: xs => x ++ sep ++ joinWith sep xs

/-- `String.prototype.replaceAll` for a one-character literal pattern:
leftmost, non-overlapping, the replacement not rescanned.  (The source only
ever calls `replaceAll` with the literal patterns `"|"`, `"\r\n"` and `"\n"`,
so one- and two-character matchers embed every call site.) -/
def replaceAllChar (p : Char) (rep : List Char) : List Char → List Char
  | [] => []
  | c :: rest =>
    if c == p then rep ++ replaceAllChar p rep rest
    else c :: replaceAllChar p rep rest

/-- `String.prototype.replaceAll` for a two-character literal pattern. -/
def replaceAllPair (p1 p2 : Char) (rep : List Char) : List Char → List Char
  | [] => []
  | [c] => [c]
  | c1 :: c2 :: rest =>
    if c1 == p1 && c2 == p2 then rep ++ replaceAllPair p1 p2 rep rest
    else c1 :: replaceAllPair p1 p2 rep (c2 :: rest)

/-- ASCII-only case-insensitive match of a literal suffix (the semantics of a
`/…$/i` regex test without the `u` flag: canonicalization never maps a
non-ASCII character onto an ASCII one, so only ASCII letters fold). -/
def endsWithCI (s suf : String) : Bool :=
  suf.data.isSuffixOf (s.data.map Char.toLower)

/-- `name.replace(/\.cls$/i, repl)`: replace a trailing `.cls` (any case) by
`repl`; no match leaves the string unchanged. -/
def replaceClsSuffix (name repl : String) : String :=
  if endsWithCI name ".cls" then String.mk (name.data.take (name.data.length - 4)) ++ repl else name

/-- `str.replace(/\s+/g, " ")`: collapse every run of whitespace to one
space.  The boolean argument records whether the previous character was part
of a whitespace run. -/
def collapseWsGo : Bool → List Char → List Char
  | _, [] => []
  | prevWs, c :: rest =>
    if jsWs c then
      if prevWs then collapseWsGo true rest else ' ' :: collapseWsGo true rest
    else c :: collapseWsGo false rest

/-! ## The JSON data model -/

/-- JSON values as delivered by the Atelier REST endpoints.  Object fields are
an association list in insertion order (JavaScript objects have unique keys;
theorems that need this assume `Nodup` on the key list). -/
inductive Json where
  | null : Json
  | bool (b : Bool) : Json
  | num (n : Int) : Json
  | str (s : String) : Json
  | arr (elems : List Json) : Json
  | obj (fields : List (String × Json)) : Json

/-- `Array.isArray`. -/
def jsIsArray : Json → Bool
  | .arr _ => true
  | _ => false

/-- `isPlainObject` from the source: `typeof v === "object" && v !== null &&
!Array.isArray(v)`. -/
def isPlainObject : Json → Bool
  | .obj _ => true
  | _ => false

/-- Is this JSON value a string? -/
def isJsonStr : Json → Bool
  | .str _ => true
  | _ => false

/-- Property read `v[k]` / `v?.k`: `none` models `undefined` (missing key or
non-object receiver). -/
def jsGetField (v : Json) (k : String) : Option Json :=
  match v with
  | .obj fields => (fields.find? (fun kv => kv.1 == k)).map (·.2)
  | _ => none

/-- A lowercase hex digit. -/
def hexDigit (n : Nat) : Char :=
  if n < 10 then Char.ofNat ('0'.toNat + n) else Char.ofNat ('a'.toNat + (n - 10))

/-- `\u00XX`-style 4-digit escape body. -/
def hex4 (n : Nat) : List Char :=
  [hexDigit (n / 4096 % 16), hexDigit (n / 256 % 16), hexDigit (n / 16 % 16), hexDigit (n % 16)]

/-- One character of `JSON.stringify` string escaping. -/
def jsonQuoteChar (c : Char) : List Char :=
  if c == '"' then ['\\', '"']
  else if c == '\\' then ['\\', '\\']
  else if c == '\x08' then ['\\', 'b']
  else if c == '\x0c' then ['\\', 'f']
  else if c == '\n' then ['\\', 'n']
  else if c == '\r' then ['\\', 'r']
  else if c == '\t' then ['\\', 't']
  else if c.toNat < 0x20 then '\\' :: 'u' :: hex4 c.toNat
  else [c]

/-- `JSON.stringify` of a string: quoted and escaped. -/
def jsonQuote (s : String) : String :=
  "\"" ++ String.mk (s.data.flatMap jsonQuoteChar) ++ "\""

mutual

/-- Compact `JSON.stringify(v)`.  Circular structures and BigInt — the only
ways `JSON.stringify` can throw — cannot be represented in the inductive
model, so the source's `catch` branch around it is unreachable here. -/
def jsonStringify : Json → String
  | .null => "null"
  | .bool b => if b then "true" else "false"
  | .num n => toString n
  | .str s => jsonQuote s
  | .arr l => "[" ++ jsonStringifyList l ++ "]"
  | .obj fields => "\x7b" ++ jsonStringifyFields fields ++ "\x7d"

/-- Comma-joined compact serialization of array elements. -/
def jsonStringifyList : List Json → String
  | [] => ""
  | [v] => jsonStringify v
  | v :: rest => jsonStringify v ++ "," ++ jsonStringifyList rest

/-- Comma-joined compact serialization of object fields. -/
def jsonStringifyFields : List (String × Json) → String
  | [] => ""
  | [(k, v)] => jsonQuote k ++ ":" ++ jsonStringify v
  | (k, v) :: rest => jsonQuote k ++ ":" ++ jsonStringify v ++ "," ++ jsonStringifyFields rest

end

/-- `n` spaces of indentation. -/
def spaces (n : Nat) : String := String.mk (List.replicate n ' ')

mutual

/-- `JSON.stringify(v, null, 2)`: pretty-printed with two-space indent, the
closing bracket at the parent's indentation. -/
def jsonPretty (ind : Nat) : Json → String
  | .null => "null"
  | .bool b => if b then "true" else "false"
  | .num n => toString n
  | .str s => jsonQuote s
  | .arr [] => "[]"
  | .arr (v :: rest) =>
      "[\n" ++ jsonPrettyList (ind + 2) (v :: rest) ++ "\n" ++ spaces ind ++ "]"
  | .obj [] => "\x7b\x7d"
  | .obj (kv :: rest) =>
      "\x7b\n" ++ jsonPrettyFields (ind + 2) (kv :: rest) ++ "\n" ++ spaces ind ++ "\x7d"

/-- Pretty-printed array items, one per line. -/
def jsonPrettyList (ind : Nat) : List Json → String
  | [] => ""
  | [v] => spaces ind ++ jsonPretty ind v
  | v :: rest => spaces ind ++ jsonPretty ind v ++ ",\n" ++ jsonPrettyList ind rest

/-- Pretty-printed object fields, one per line. -/
def jsonPrettyFields (ind : Nat) : List (String × Json) → String
  | [] => ""
  | [(k, v)] => spaces ind ++ jsonQuote k ++ ": " ++ jsonPretty ind v
  | (k, v) :: rest =>
      spaces ind ++ jsonQuote k ++ ": " ++ jsonPretty ind v ++ ",\n" ++ jsonPrettyFields ind rest

end

mutual

/-- JavaScript `String(v)`: arrays join their elements with `,` (with
`null`/`undefined` elements becoming empty), plain objects print as
`[object Object]`. -/
def jsString : Json → String
  | .null => "null"
  | .bool b => if b then "true" else "false"
  | .num n => toString n
  | .str s => s
  | .arr l => jsStringArrJoin l
  | .obj _ => "[object Object]"

/-- `Array.prototype.join(",")` with the element conversion of `String()`. -/
def jsStringArrJoin : List Json → String
  | [] => ""
  | [.null] => ""
  | [v] => jsString v
  | .null :: rest => "," ++ jsStringArrJoin rest
  | v :: rest => jsString v ++ "," ++ jsStringArrJoin rest

end

/-- The element conversion of `Array.prototype.join(sep)` on a JSON array:
`null`/`undefined` become the empty string, anything else its `String()`
form (used for `lines.join("\n")` in the routine tool). -/
def jsJoinElem : Json → String
  | .null => ""
  | v => jsString v

/-! ## Diagnostic summarizer (`extractVersionInfo`) -/

/-- Case-insensitive (ASCII folding) literal prefix strip: `some rest` when
`pat` matches the front of `l`. -/
def stripPrefixCI : List Char → List Char → Option (List Char)
  | [], l => some l
  | _ :: _, [] => none
  | p :: ps, c :: cs => if p.toLower == c.toLower then stripPrefixCI ps cs else none

/-- Anchored match of the regex `/"<key>"\s*:\s*"([^"]+)"/i` at the front of
`l`, returning the capture.  The greedy quantifiers need no backtracking:
`\s` never contains `:` or `"`, and `[^"]` never contains `"`. -/
def tryVersionMatch (key : List Char) (l : List Char) : Option (List Char) :=
  match stripPrefixCI ('"' :: key ++ ['"']) l with
  | none => none
  | some rest =>
    match rest.dropWhile jsWs with
    | ':' :: rest2 =>
      (match rest2.dropWhile jsWs with
       | '"' :: rest3 =>
         let cap := rest3.takeWhile (fun c => !(c == '"'))
         if cap.isEmpty then none
         else
           match rest3.drop cap.length with
           | '"' :: _ => some cap
           | _ => none
       | _ => none)
    | _ => none

/-- Leftmost match of the version regex over the whole subject. -/
def regexSearchKey (key : List Char) : List Char → Option (List Char)
  | [] => none
  | c :: rest =>
    match tryVersionMatch key (c :: rest) with
    | some cap => some cap
    | none => regexSearchKey key rest

/-- Capture 1 of executing `/"<key>"\s*:\s*"([^"]+)"/i` against `s`. -/
def findVersionCapture (key : String) (s : String) : Option String :=
  (regexSearchKey key.data s.data).map String.mk

/-- The object branch of `extractVersionInfo`: probe the serialized form for
the three version-like keys in priority order, else pretty-print truncated to
400 units. -/
def versionSummary (v : Json) : String :=
  let json := jsonStringify v
  match findVersionCapture "version" json with
  | some m => "version=" ++ m
  | none =>
    match findVersionCapture "irisVersion" json with
    | some m => "version=" ++ m
    | none =>
      match findVersionCapture "productVersion" json with
      | some m => "version=" ++ m
      | none => String.mk ((jsonPretty 0 v).data.take 400)

/-- `extractVersionInfo` from the source: a total diagnostic summarizer. -/
def extractVersionInfo : Json → String
  | .null => "No response body."
  | .obj fields => versionSummary (.obj fields)
  | .arr l => versionSummary (.arr l)
  | .str s =>
    let snippet := String.mk ((collapseWsGo false s.data).take 400)
    if 0 < snippet.length then snippet else "Empty string body."
  | .num n => jsString (.num n)
  | .bool b => jsString (.bool b)

/-! ## Tabular normalizer (`formatMarkdownTable`) -/

/-- `escapeMarkdownCell` from the source: escape pipes, normalize CRLF, then
turn newlines into `<br>`. -/
def escapeMarkdownCell (value : String) : String :=
  String.mk (replaceAllChar '\n' "<br>".data
    (replaceAllPair '\r' '\n' "\n".data
      (replaceAllChar '|' "\\|".data value.data)))

/-- `toCellString` from the source (the `try`/`catch` around `JSON.stringify`
is dead in this model, see `jsonStringify`). -/
def toCellString : Json → String
  | .null => ""
  | .str s => s
  | .num n => toString n
  | .bool b => if b then "true" else "false"
  | .arr l => jsonStringify (.arr l)
  | .obj fields => jsonStringify (.obj fields)

/-- Cell stringification of `r[c]`, where `none` models `undefined` (the
`value == null` test in the source catches both `null` and `undefined`). -/
def toCellStringOpt : Option Json → String
  | none => ""
  | some v => toCellString v

/-- Projection typing the `content as Array<Record<string, unknown>>` cast. -/
def jsonObjFields : Json → Option (List (String × Json))
  | .obj fields => some fields
  | _ => none

/-- Projection typing the `content as unknown[][]` cast. -/
def jsonArrElems : Json → Option (List Json)
  | .arr l => some l
  | _ => none

/-- The column-building double loop of case 1: push each key of each row
unless already present. -/
def computeColumns (rows : List (List (String × Json))) : List String :=
  rows.foldl
    (fun cols r =>
      (r.map Prod.fst).foldl (fun cols k => if cols.contains k then cols else cols ++ [k]) cols)
    []

/-- First-match association lookup: the read `r[c]` on a row object. -/
def jsLookup (r : List (String × Json)) (k : String) : Option Json :=
  (r.find? (fun kv => kv.1 == k)).map (·.2)

/-- A table line: cells joined by a spaced pipe and wrapped in pipes. -/
def wrapRow (cells : List String) : String := "| " ++ joinWith " | " cells ++ " |"

/-- `[header, sep, body].filter(Boolean).join("\n")`: the only falsy string
is the empty one. -/
def joinTruthy (parts : List String) : String :=
  joinWith "\n" (parts.filter (fun s => decide (s ≠ "")))

/-- The `while (cells.length < n) cells.push(""); cells.slice(0, n)`
normalization of case 2: right-pad with empty strings, then truncate. -/
def padTo (r : List Json) (n : Nat) : List Json :=
  (r ++ List.replicate (n - r.length) (Json.str "")).take n

/-- `formatMarkdownTable` from the source. -/
def formatMarkdownTable : Json → String
  | .arr content =>
    match content with
    | [] => "_(empty result)_"
    | _ :: _ =>
      if content.all isPlainObject then
        let rows := content.filterMap jsonObjFields
        let columns0 := computeColumns rows
        let columns := if columns0.isEmpty then ["value"] else columns0
        let header := wrapRow (columns.map escapeMarkdownCell)
        let sep := wrapRow (columns.map (fun _ => "---"))
        let body := joinWith "\n" (rows.map (fun r =>
          wrapRow (columns.map (fun c => escapeMarkdownCell (toCellStringOpt (jsLookup r c))))))
        joinTruthy [header, sep, body]
      else if content.all jsIsArray then
        let rows := content.filterMap jsonArrElems
        let maxLen := rows.foldl (fun m r => max m r.length) 0
        let row0 := rows.headD []
        let row1 := rows[1]?
        let hasHeader :=
          row1.isSome &&
          decide (0 < row0.length) &&
          (match row1 with | some r1 => row0.length == r1.length | none => false) &&
          row0.all isJsonStr
        let headerCells :=
          if hasHeader then row0.map (fun v => escapeMarkdownCell (jsString v))
          else (List.range (max maxLen 1)).map (fun i => "col" ++ toString (i + 1))
        let dataRows := if hasHeader then rows.drop 1 else rows
        let normalized := dataRows.map (fun r => padTo r headerCells.length)
        let header := wrapRow headerCells
        let sep := wrapRow (headerCells.map (fun _ => "---"))
        let body := joinWith "\n" (normalized.map (fun r =>
          wrapRow (r.map (fun v => escapeMarkdownCell (toCellString v)))))
        joinTruthy [header, sep, body]
      else
        let header := "| value |"
        let sep := "| --- |"
        let body := joinWith "\n" (content.map (fun v =>
          "| " ++ escapeMarkdownCell (toCellString v) ++ " |"))
        joinWith "\n" [header, sep, body]
  | v => "Unrecognized SQL response format:\n" ++ extractVersionInfo v

/-! ## Candidate resolver (`buildRoutineDocCandidates`) -/

/-- The `add` closure of `buildRoutineDocCandidates`: trim, drop empties, skip
exact duplicates.  The source keeps a `Set` named `seen` next to `out`; the
two always hold the same members, so membership in `out` models the set. -/
def addCandidate (out : List String) (v : String) : List String :=
  let vv := jsTrim v
  if vv == "" then out
  else if out.contains vv then out
  else out ++ [vv]

/-- `buildRoutineDocCandidates` from the source. -/
def buildRoutineDocCandidates (inputName : String) : List String :=
  let name := jsTrim inputName
  if endsWithCI name ".cls" then
    addCandidate (addCandidate [] (replaceClsSuffix name ".1.int")) (replaceClsSuffix name ".int")
  else if endsWithCI name ".int" || endsWithCI name ".mac" || endsWithCI name ".inc" then
    addCandidate [] name
  else
    addCandidate (addCandidate (addCandidate [] (name ++ ".1.int")) (name ++ ".int")) name

/-- The candidate policy as the specification words it, with the one
amendment the code forces: in the bare-name branch, the verbatim trimmed name
is a candidate only when it is non-empty (the `add` helper silently drops
empty strings, so a whitespace-only input loses its last-resort verbatim
candidate). -/
def specCandidates (s : String) : List String :=
  let t := jsTrim s
  if endsWithCI t ".cls" then
    [String.mk (t.data.take (t.data.length - 4)) ++ ".1.int",
     String.mk (t.data.take (t.data.length - 4)) ++ ".int"]
  else if endsWithCI t ".int" || endsWithCI t ".mac" || endsWithCI t ".inc" then
    [t]
  else
    [t ++ ".1.int", t ++ ".int"] ++ (if t = "" then [] else [t])

/-! ## The retry/fallback walk of the `get_iris_routine` handler -/

/-- `normalizeBaseUrl`: strip trailing slashes. -/
def normalizeBaseUrl (url : String) : String :=
  String.mk ((url.data.reverse.dropWhile (fun c => c == '/')).reverse)

/-- An HTTP response attached to an axios error: a status and an optional
body (`none` models an absent/`undefined` body, `some .null` an explicit
JSON `null`). -/
structure AxResponse where
  status : Nat
  data : Option Json

/-- The outcome of one simulated lookup (`client.get(url)`): success with a
body, an axios error (optionally carrying an HTTP response and/or an error
code), or a non-axios error (whose `String(err)` form is carried). -/
inductive Resp where
  | ok (data : Json)
  | axErr (response : Option AxResponse) (code : Option String) (msg : String)
  | otherErr (msg : String)

/-- The error-code list of `isLikelyNetworkMisconfig`. -/
def networkErrorCodes : List String :=
  ["ECONNREFUSED", "ETIMEDOUT", "ESOCKETTIMEDOUT", "ENOTFOUND",
   "EAI_AGAIN", "ECONNRESET", "EHOSTUNREACH", "ENETUNREACH"]

/-- `isLikelyNetworkMisconfig` from the source: an axios error with no HTTP
response whose code (`err.code ?? ""`) is in the recognized list. -/
def isLikelyNetworkMisconfig : Resp → Bool
  | .axErr none code _ => networkErrorCodes.contains (code.getD "")
  | _ => false

/-- `shouldRetryOnce` from the source: only transient 502/503/504. -/
def shouldRetryOnce : Resp → Bool
  | .axErr (some r) _ _ => r.status == 502 || r.status == 503 || r.status == 504
  | _ => false

/-- One record of the handler's `tried` array. -/
structure TriedRec where
  name : String
  status : Option Nat
  msg : String
deriving DecidableEq

/-- `err.response?.status`. -/
def statusOfResp : Resp → Option Nat
  | .axErr (some r) _ _ => some r.status
  | _ => none

/-- The environment values the handler's messages embed. -/
structure WalkCfg where
  irisUrl : String
  resolvedNamespace : String

/-- `err.response?.data ?? err.message`: the nullish coalescing falls through
on both an absent and an explicit-`null` body. -/
def errSnippetInput (response : Option AxResponse) (msg : String) : Json :=
  match response with
  | some r =>
    match r.data with
    | some .null => .str msg
    | some d => d
    | none => .str msg
  | none => .str msg

/-- The snippet embedded in error messages. -/
def errSnippet (response : Option AxResponse) (msg : String) : String :=
  extractVersionInfo (errSnippetInput response msg)

/-- Template rendering of a possibly-undefined status. -/
def statusDisplay (status : Option Nat) : String :=
  match status with
  | some s => toString s
  | none => "undefined"

/-- The connectivity-hint message of the fast-fail branch. -/
def connectivityHintText (cfg : WalkCfg) (code : Option String) : String :=
  let codePart :=
    match code with
    | some c => if c == "" then "" else " (" ++ c ++ ")"
    | none => ""
  "无法连接到 IRIS" ++ codePart ++ "。请检查 IRIS_URL/端口、网络连通性与 Basic Auth。" ++
    "\n- IRIS_URL: " ++ cfg.irisUrl ++
    "\n- 尝试访问: " ++ normalizeBaseUrl cfg.irisUrl ++ "/api/atelier/"

/-- The immediate abort message for HTTP 401/403. -/
def authFailureText (status : Option Nat) (response : Option AxResponse) (msg : String) : String :=
  "认证/权限失败（HTTP " ++ statusDisplay status ++ "）。\n" ++ errSnippet response msg

/-- The generic HTTP failure message (`status ?? "unknown"`). -/
def genericHttpFailureText (response : Option AxResponse) (msg : String) : String :=
  let statusDisp :=
    match response with
    | some r => toString r.status
    | none => "unknown"
  "获取 routine 失败（HTTP " ++ statusDisp ++ "）。\n" ++ errSnippet response msg

/-- The success text: `result = res.data?.result ?? res.data`, the optional
`content` line array, and the header line. -/
def successText (data : Json) (candidate : String) : String :=
  let result :=
    match jsGetField data "result" with
    | some .null => data
    | some v => v
    | none => data
  let lines :=
    match jsGetField result "content" with
    | some (.arr l) => some l
    | _ => none
  let nameVal :=
    match jsGetField result "name" with
    | some .null => Json.str candidate
    | some v => v
    | none => Json.str candidate
  let catVal :=
    match jsGetField result "cat" with
    | some .null => Json.str "unknown"
    | some v => v
    | none => Json.str "unknown"
  let header := "[IRIS routine] name=" ++ jsString nameVal ++ " cat=" ++ jsString catVal
  match lines with
  | some l => header ++ "\n" ++ joinWith "\n" (l.map jsJoinElem)
  | none => header ++ "\n" ++ extractVersionInfo data

/-- The exhaustion message: every tried name, one per line, dash-prefixed. -/
def notFoundText (cfg : WalkCfg) (candidates : List String) : String :=
  "未找到对应的 routine 文档。\n已尝试以下名称：\n" ++
    joinWith "\n" (candidates.map (fun c => "- " ++ c)) ++
    "\n\n请确认：\n- 类已编译（会生成 *.1.int）\n- namespace 正确：" ++ cfg.resolvedNamespace

/-- What one attempt decides: return a final text to the caller, advance to
the next candidate (the `break`), or retry the same candidate (the
`sleep(250); continue`). -/
inductive AttStep where
  | finish (text : String)
  | nextCand
  | retrySame
deriving DecidableEq

/-- The decision of one attempt, together with the records it appends to
`tried`. -/
structure AttDecision where
  recs : List TriedRec
  step : AttStep

/-- The body of the `try`/`catch` for one attempt on one candidate, as a pure
decision function of the lookup outcome. -/
def decideAttempt (cfg : WalkCfg) (candidate : String) (attempt : Nat) : Resp → AttDecision
  | .ok data => ⟨[], .finish (successText data candidate)⟩
  | .axErr response code msg =>
    if isLikelyNetworkMisconfig (.axErr response code msg) then
      ⟨[], .finish (connectivityHintText cfg code)⟩
    else
      let status := statusOfResp (.axErr response code msg)
      let rec0 : TriedRec := ⟨candidate, status, msg⟩
      if status == some 400 || status == some 404 then ⟨[rec0], .nextCand⟩
      else if status == some 401 || status == some 403 then
        ⟨[rec0], .finish (authFailureText status response msg)⟩
      else if attempt == 0 && shouldRetryOnce (.axErr response code msg) then
        ⟨[rec0], .retrySame⟩
      else ⟨[rec0], .finish (genericHttpFailureText response msg)⟩
  | .otherErr msg => ⟨[], .finish ("获取 routine 失败：" ++ msg)⟩

/-- Observable events of a walk: a lookup of a candidate (with its per-candidate
attempt index) and the fixed 250 ms backoff sleep. -/
inductive WalkEv where
  | attempt (candidate : String) (idx : Nat)
  | backoff (ms : Nat)
deriving DecidableEq

/-- The result of a walk: the single text block returned to the host, the
ordered trace of lookups and sleeps, and the accumulated `tried` records. -/
structure WalkOut where
  text : String
  trace : List WalkEv
  tried : List TriedRec

/-- The candidate walk: for each candidate in order, at most two attempts,
with the per-attempt decision of `decideAttempt`.  A lookup is a function of
the candidate and the per-candidate attempt index (a simulated
`client.get`).  When the inner attempt loop runs off its end (only possible
after a retry decision at the second attempt, which `decideAttempt` never
produces), control falls to the next candidate, as in the source's `for`
loop. -/
def goWalk (cfg : WalkCfg) (lookup : String → Nat → Resp) (allCands : List String) :
    List String → List WalkEv → List TriedRec → WalkOut
  | [], trace, tried => ⟨notFoundText cfg allCands, trace, tried⟩
  | c :: rest, trace, tried =>
    let d0 := decideAttempt cfg c 0 (lookup c 0)
    let trace0 := trace ++ [.attempt c 0]
    let tried0 := tried ++ d0.recs
    match d0.step with
    | .finish txt => ⟨txt, trace0, tried0⟩
    | .nextCand => goWalk cfg lookup allCands rest trace0 tried0
    | .retrySame =>
      let d1 := decideAttempt cfg c 1 (lookup c 1)
      let trace1 := trace0 ++ [.backoff 250, .attempt c 1]
      let tried1 := tried0 ++ d1.recs
      match d1.step with
      | .finish txt => ⟨txt, trace1, tried1⟩
      | .nextCand => goWalk cfg lookup allCands rest trace1 tried1
      | .retrySame => goWalk cfg lookup allCands rest (trace1 ++ [.backoff 250]) tried1

/-- The whole `get_iris_routine` handler after candidate resolution. -/
def getIrisRoutine (cfg : WalkCfg) (lookup : String → Nat → Resp) (name : String) : WalkOut :=
  let candidates := buildRoutineDocCandidates name
  goWalk cfg lookup candidates candidates [] []

/-- `err.message` (respectively `String(err)` for non-axios errors). -/
def msgOf : Resp → String
  | .axErr _ _ m => m
  | .otherErr m => m
  | .ok _ => ""

/-- `err.code`. -/
def codeOf : Resp → Option String
  | .axErr _ code _ => code
  | _ => none

/-- The `tried` record pushed for an axios error on candidate `c`. -/
def triedRecOf (c : String) (r : Resp) : TriedRec :=
  ⟨c, statusOfResp r, msgOf r⟩

/-- A lookup outcome counting as HTTP 400 or 404. -/
def is400or404 (r : Resp) : Bool :=
  statusOfResp r == some 400 || statusOfResp r == some 404

/-- The generic failure text the handler's fall-through produces for an
error (HTTP for axios errors, the plain form otherwise). -/
def genericFailureTextOf : Resp → String
  | .axErr response _ msg => genericHttpFailureText response msg
  | .otherErr msg => "获取 routine 失败：" ++ msg
  | .ok _ => ""

/-- Fixture: a configuration for concrete walk instances. -/
def wCfg : WalkCfg := ⟨"http://localhost:63668", "USER"⟩

/-- Fixture: a lookup that always answers HTTP 404. -/
def wLookup404 : String → Nat → Resp :=
  fun _ _ => .axErr (some ⟨404, none⟩) none "Request failed with status code 404"

/-- Fixture: a lookup that always answers HTTP 503. -/
def wLookup503 : String → Nat → Resp :=
  fun _ _ => .axErr (some ⟨503, none⟩) none "Request failed with status code 503"

/-- Fixture: a lookup that always fails with a refused connection. -/
def wLookupRefused : String → Nat → Resp :=
  fun _ _ => .axErr none (some "ECONNREFUSED") "connect ECONNREFUSED 127.0.0.1:63668"

/-! ## Specification-side renderings (the spec's words, for refinement) -/

/-- Spec wording: "the union of all rows' keys in order of first
appearance". -/
def specFirstSeenUnion (rows : List (List (String × Json))) : List String :=
  rows.foldl (fun acc r => acc ++ (r.map Prod.fst).filter (fun k => !acc.contains k)) []

/-- Spec wording of the object-rows table: header = ordered key union (or the
synthetic `value` column), one separator row, one body row per input element,
each cell the escaped stringification of that row's value at the column key,
empty when absent. -/
def specObjectTable (rows : List (List (String × Json))) : String :=
  let columns := if specFirstSeenUnion rows = [] then ["value"] else specFirstSeenUnion rows
  let headerRow := wrapRow (columns.map escapeMarkdownCell)
  let sepRow := wrapRow (columns.map (fun _ => "---"))
  let bodyRows := rows.map (fun r =>
    wrapRow (columns.map (fun c => escapeMarkdownCell (toCellStringOpt (jsLookup r c)))))
  headerRow ++ "\n" ++ sepRow ++ "\n" ++ joinWith "\n" bodyRows

/-- Spec wording of the header-inference condition: a second row exists, the
first row has nonzero length equal to the second row's length, and every cell
of the first row is a string. -/
def specHasHeader (rows : List (List Json)) : Bool :=
  match rows with
  | r0 :: r1 :: _ => decide (0 < r0.length) && r0.length == r1.length && r0.all isJsonStr
  | _ => false

/-- Spec wording of the array-rows table: infer or synthesize the header,
right-pad every data row with empty-string cells to the header width and
truncate to the header width. -/
def specArrayTable (rows : List (List Json)) : String :=
  let maxLen := (rows.map List.length).foldr max 0
  let hasHeader := specHasHeader rows
  let headerCells :=
    if hasHeader then (rows.headD []).map (fun v => escapeMarkdownCell (jsString v))
    else (List.range (max maxLen 1)).map (fun i => "col" ++ toString (i + 1))
  let dataRows := if hasHeader then rows.drop 1 else rows
  let bodyRows := dataRows.map (fun r =>
    wrapRow ((r.takeD headerCells.length (Json.str "")).map
      (fun v => escapeMarkdownCell (toCellString v))))
  wrapRow headerCells ++ "\n" ++ wrapRow (headerCells.map (fun _ => "---")) ++ "\n" ++
    joinWith "\n" bodyRows

/-! ## Basic facts about the string primitives -/

theorem dropWhile_head?_false (p : Char → Bool) :
    ∀ (l : List Char) {c : Char}, (l.dropWhile p).head? = some c → p c = false := by
  intro l
  induction l with
  | nil => intro c h; simp [List.dropWhile] at h
  | cons a rest ih =>
    intro c h
    rw [List.dropWhile_cons] at h
    by_cases hp : p a
    · rw [if_pos hp] at h; exact ih h
    · rw [if_neg hp] at h
      simp only [List.head?_cons, Option.some.injEq] at h
      subst h
      exact Bool.eq_false_iff.mpr hp

theorem dropWhile_eq_self_of_head (p : Char → Bool) (l : List Char)
    (h : ∀ c, l.head? = some c → p c = false) : l.dropWhile p = l := by
  cases l with
  | nil => simp
  | cons a rest =>
    rw [List.dropWhile_cons, if_neg]
    simp [h a rfl]

theorem trimRightData_isPrefix (l : List Char) : trimRightData l <+: l := by
  obtain ⟨t, ht⟩ := List.dropWhile_suffix (l := l.reverse) jsWs
  refine ⟨t.reverse, ?_⟩
  show (l.reverse.dropWhile jsWs).reverse ++ t.reverse = l
  rw [← List.reverse_append, ht, List.reverse_reverse]

theorem head?_of_isPrefix {p l : List Char} (h : p <+: l) {c : Char}
    (hc : p.head? = some c) : l.head? = some c := by
  obtain ⟨t, rfl⟩ := h
  cases p with
  | nil => cases hc
  | cons a q => cases hc; rfl

theorem jsTrim_head?_false (s : String) {c : Char}
    (h : (jsTrim s).data.head? = some c) : jsWs c = false := by
  have hp : trimRightData (trimLeftData s.data) <+: trimLeftData s.data :=
    trimRightData_isPrefix _
  exact dropWhile_head?_false jsWs _ (head?_of_isPrefix hp h)

theorem jsTrim_getLast?_false (s : String) {c : Char}
    (h : (jsTrim s).data.getLast? = some c) : jsWs c = false := by
  have h' : ((trimLeftData s.data).reverse.dropWhile jsWs).head? = some c := by
    have : (jsTrim s).data.getLast? =
        ((trimLeftData s.data).reverse.dropWhile jsWs).reverse.getLast? := rfl
    rw [this, List.getLast?_reverse] at h
    exact h
  exact dropWhile_head?_false jsWs _ h'

theorem jsTrim_eq_self (s : String)
    (h1 : ∀ c, s.data.head? = some c → jsWs c = false)
    (h2 : ∀ c, s.data.getLast? = some c → jsWs c = false) : jsTrim s = s := by
  apply String.ext
  show trimRightData (trimLeftData s.data) = s.data
  have hL : trimLeftData s.data = s.data := dropWhile_eq_self_of_head _ _ h1
  rw [hL]
  unfold trimRightData
  have hR : s.data.reverse.dropWhile jsWs = s.data.reverse := by
    apply dropWhile_eq_self_of_head
    intro c hc
    rw [List.head?_reverse] at hc
    exact h2 c hc
  rw [hR, List.reverse_reverse]

theorem jsTrim_idem (s : String) : jsTrim (jsTrim s) = jsTrim s :=
  jsTrim_eq_self _ (fun _ h => jsTrim_head?_false s h) (fun _ h => jsTrim_getLast?_false s h)

theorem string_ne_empty_of_data {s : String} (h : s.data ≠ []) : s ≠ "" := by
  intro he
  exact h (by rw [he])

theorem append_ne_empty_right (a : String) {b : String} (h : b.data ≠ []) : a ++ b ≠ "" := by
  apply string_ne_empty_of_data
  rw [String.data_append]
  intro hx
  exact h (List.append_eq_nil.mp hx).2

theorem ne_of_data_length {a b : String} (h : a.data.length ≠ b.data.length) : a ≠ b :=
  fun he => h (by rw [he])

theorem head?_ws_false_aux {l : List Char} (hs : (l.head?.map jsWs).getD false = false) :
    ∀ c, l.head? = some c → jsWs c = false := by
  intro c hc
  rw [hc] at hs
  simpa using hs

theorem getLast?_ws_false_aux {l : List Char} (hs : (l.getLast?.map jsWs).getD false = false) :
    ∀ c, l.getLast? = some c → jsWs c = false := by
  intro c hc
  rw [hc] at hs
  simpa using hs

theorem head?_of_take {l : List Char} {n : Nat} {c : Char} (h : (l.take n).head? = some c) :
    l.head? = some c :=
  head?_of_isPrefix (List.take_prefix n l) h

/-- A trimmed prefix followed by a whitespace-free non-empty literal is
`trim`-stable. -/
theorem jsTrim_mk_append_eq (pre : List Char) (suf : String)
    (hpre : ∀ c, pre.head? = some c → jsWs c = false)
    (hsufh : ∀ c, suf.data.head? = some c → jsWs c = false)
    (hsufl : ∀ c, suf.data.getLast? = some c → jsWs c = false)
    (hsufne : suf.data ≠ []) :
    jsTrim (String.mk pre ++ suf) = String.mk pre ++ suf := by
  apply jsTrim_eq_self
  · intro c hc
    rw [String.data_append, List.head?_append] at hc
    cases hp : pre.head? with
    | some d =>
      rw [hp] at hc
      simp only [Option.or_some, Option.some.injEq] at hc
      subst hc
      exact hpre d hp
    | none =>
      rw [hp] at hc
      simp only [Option.none_or] at hc
      exact hsufh c hc
  · intro c hc
    rw [String.data_append, List.getLast?_append] at hc
    cases hl : suf.data.getLast? with
    | some d =>
      rw [hl] at hc
      simp only [Option.or_some, Option.some.injEq] at hc
      subst hc
      exact hsufl d hl
    | none =>
      exact absurd (List.getLast?_eq_none_iff.mp hl) hsufne

theorem length_ge_of_endsWithCI {t suf : String} (h : endsWithCI t suf = true) :
    suf.data.length ≤ t.data.length := by
  unfold endsWithCI at h
  have hs := (List.isSuffixOf_iff_suffix).mp h
  have hl := hs.length_le
  rwa [List.length_map] at hl

/-! ## Candidate-resolver lemmas -/

theorem addCandidate_new (out : List String) (v : String)
    (ht : jsTrim v = v) (hne : v ≠ "") (hmem : v ∉ out) :
    addCandidate out v = out ++ [v] := by
  have h1 : ¬ ((v == "") = true) := by simp [hne]
  have h2 : ¬ (out.contains v = true) := by
    simp [List.contains, List.elem_eq_mem, hmem]
  simp only [addCandidate, ht]
  rw [if_neg h1, if_neg h2]

theorem addCandidate_dup (out : List String) (v : String)
    (ht : jsTrim v = v) (hmem : v ∈ out) :
    addCandidate out v = out := by
  simp only [addCandidate, ht]
  by_cases h1 : (v == "") = true
  · rw [if_pos h1]
  · rw [if_neg h1, if_pos (by simp [List.contains, List.elem_eq_mem, hmem])]

theorem addCandidate_empty (out : List String) (v : String) (ht : jsTrim v = "") :
    addCandidate out v = out := by
  simp only [addCandidate, ht]
  rw [if_pos (by simp)]

theorem buildCandidates_eq_spec (s : String) :
    buildRoutineDocCandidates s = specCandidates s := by
  unfold buildRoutineDocCandidates specCandidates
  simp only []
  set t := jsTrim s with htdef
  have F1 : ∀ c, t.data.head? = some c → jsWs c = false := fun _ h => jsTrim_head?_false s h
  have Fidem : jsTrim t = t := jsTrim_idem s
  have hTake : ∀ c, (t.data.take (t.data.length - 4)).head? = some c → jsWs c = false :=
    fun c hc => F1 c (head?_of_take hc)
  by_cases hcls : endsWithCI t ".cls" = true
  · rw [if_pos hcls, if_pos hcls]
    have hrepl : ∀ repl : String, replaceClsSuffix t repl =
        String.mk (t.data.take (t.data.length - 4)) ++ repl := by
      intro repl
      unfold replaceClsSuffix
      rw [if_pos hcls]
    rw [hrepl, hrepl]
    set pre := t.data.take (t.data.length - 4) with hpredef
    have ha : jsTrim (String.mk pre ++ ".1.int") = String.mk pre ++ ".1.int" :=
      jsTrim_mk_append_eq pre ".1.int" hTake
        (head?_ws_false_aux (by decide)) (getLast?_ws_false_aux (by decide)) (by decide)
    have hb : jsTrim (String.mk pre ++ ".int") = String.mk pre ++ ".int" :=
      jsTrim_mk_append_eq pre ".int" hTake
        (head?_ws_false_aux (by decide)) (getLast?_ws_false_aux (by decide)) (by decide)
    have hane : (String.mk pre ++ ".1.int") ≠ "" :=
      append_ne_empty_right _ (by decide)
    have hbne : (String.mk pre ++ ".int") ≠ "" :=
      append_ne_empty_right _ (by decide)
    have hab : (String.mk pre ++ ".int") ≠ (String.mk pre ++ ".1.int") := by
      apply ne_of_data_length
      rw [String.data_append, String.data_append, List.length_append, List.length_append]
      simp
    rw [addCandidate_new [] _ ha hane (by simp),
        addCandidate_new _ _ hb hbne (by simpa using hab)]
    rfl
  · rw [if_neg hcls, if_neg hcls]
    by_cases hext : (endsWithCI t ".int" || endsWithCI t ".mac" || endsWithCI t ".inc") = true
    · rw [if_pos hext, if_pos hext]
      have htne : t ≠ "" := by
        apply string_ne_empty_of_data
        intro hnil
        have h4 : 4 ≤ t.data.length := by
          rcases Bool.or_eq_true_iff.mp hext with h | h
          · rcases Bool.or_eq_true_iff.mp h with h' | h'
            · exact length_ge_of_endsWithCI h'
            · exact length_ge_of_endsWithCI h'
          · exact length_ge_of_endsWithCI h
        rw [hnil] at h4
        simp at h4
      rw [addCandidate_new [] t Fidem htne (by simp)]
      rfl
    · rw [if_neg hext, if_neg hext]
      have ha : jsTrim (t ++ ".1.int") = t ++ ".1.int" :=
        jsTrim_mk_append_eq t.data ".1.int" F1
          (head?_ws_false_aux (by decide)) (getLast?_ws_false_aux (by decide)) (by decide)
      have hb : jsTrim (t ++ ".int") = t ++ ".int" :=
        jsTrim_mk_append_eq t.data ".int" F1
          (head?_ws_false_aux (by decide)) (getLast?_ws_false_aux (by decide)) (by decide)
      have hane : (t ++ ".1.int") ≠ "" := append_ne_empty_right _ (by decide)
      have hbne : (t ++ ".int") ≠ "" := append_ne_empty_right _ (by decide)
      have hab : (t ++ ".int") ≠ (t ++ ".1.int") := by
        apply ne_of_data_length
        rw [String.data_append, String.data_append, List.length_append, List.length_append]
        simp
      rw [addCandidate_new [] _ ha hane (by simp),
          addCandidate_new _ _ hb hbne (by simpa using hab)]
      by_cases ht0 : t = ""
      · rw [addCandidate_empty _ _ (by rw [ht0]; rfl), if_pos ht0]
        rfl
      · have hta : t ≠ t ++ ".1.int" := by
          apply ne_of_data_length
          rw [String.data_append, List.length_append]
          simp
        have htb : t ≠ t ++ ".int" := by
          apply ne_of_data_length
          rw [String.data_append, List.length_append]
          simp
        rw [addCandidate_new _ t Fidem ht0 (by simp [hta, htb]), if_neg ht0]
        simp

/-! ## Tabular-normalizer lemmas -/

theorem data_ne_nil_of_ne_empty {s : String} (h : s ≠ "") : s.data ≠ [] :=
  fun hd => h (String.ext hd)

theorem append_ne_empty_left {a : String} (b : String) (h : a.data ≠ []) : a ++ b ≠ "" := by
  apply string_ne_empty_of_data
  rw [String.data_append]
  intro hx
  exact h (List.append_eq_nil.mp hx).1

theorem wrapRow_ne_empty (cells : List String) : wrapRow cells ≠ "" := by
  unfold wrapRow
  exact append_ne_empty_right _ (by decide)

theorem joinWith_cons_ne_empty (sep x : String) (xs : List String) (hx : x ≠ "") :
    joinWith sep (x :: xs) ≠ "" := by
  cases xs with
  | nil => simpa [joinWith] using hx
  | cons y ys =>
    show x ++ sep ++ joinWith sep (y :: ys) ≠ ""
    exact append_ne_empty_left _ (data_ne_nil_of_ne_empty (append_ne_empty_left _
      (data_ne_nil_of_ne_empty hx)))

theorem joinTruthy_three {a b c : String} (ha : a ≠ "") (hb : b ≠ "") (hc : c ≠ "") :
    joinTruthy [a, b, c] = a ++ "\n" ++ b ++ "\n" ++ c := by
  unfold joinTruthy
  rw [List.filter_cons, if_pos (by simp [ha]), List.filter_cons, if_pos (by simp [hb]),
      List.filter_cons, if_pos (by simp [hc]), List.filter_nil]
  show a ++ "\n" ++ (b ++ "\n" ++ c) = a ++ "\n" ++ b ++ "\n" ++ c
  simp [String.append_assoc]

theorem foldl_insert_eq (ks : List String) : ∀ acc : List String, ks.Nodup →
    ks.foldl (fun cols k => if cols.contains k then cols else cols ++ [k]) acc =
    acc ++ ks.filter (fun k => !acc.contains k) := by
  induction ks with
  | nil => intro acc _; simp
  | cons k ks ih =>
    intro acc hnd
    have hk : k ∉ ks := (List.nodup_cons.mp hnd).1
    have hnd' : ks.Nodup := (List.nodup_cons.mp hnd).2
    rw [List.foldl_cons, List.filter_cons]
    by_cases hm : acc.contains k = true
    · rw [if_pos hm, if_neg (by rw [hm]; simp)]
      exact ih acc hnd'
    · rw [if_neg hm, if_pos (by simp_all), ih (acc ++ [k]) hnd']
      have hfc : ks.filter (fun k' => !(acc ++ [k]).contains k') =
          ks.filter (fun k' => !acc.contains k') := by
        apply List.filter_congr
        intro x hx
        have hxk : x ≠ k := fun he => hk (he ▸ hx)
        simp [List.contains, List.elem_eq_mem, List.mem_append, hxk]
      rw [hfc, List.append_assoc]
      rfl

theorem computeColumns_eq_spec (rows : List (List (String × Json)))
    (hnd : ∀ r ∈ rows, (r.map Prod.fst).Nodup) :
    computeColumns rows = specFirstSeenUnion rows := by
  unfold computeColumns specFirstSeenUnion
  suffices h : ∀ acc : List String, (∀ r ∈ rows, (r.map Prod.fst).Nodup) →
      rows.foldl (fun cols r => (r.map Prod.fst).foldl
        (fun cols k => if cols.contains k then cols else cols ++ [k]) cols) acc =
      rows.foldl (fun acc r => acc ++ (r.map Prod.fst).filter (fun k => !acc.contains k)) acc by
    exact h [] hnd
  clear hnd
  induction rows with
  | nil => intro acc _; rfl
  | cons r rest ih =>
    intro acc hnd
    rw [List.foldl_cons, List.foldl_cons, foldl_insert_eq _ acc (hnd r (by simp))]
    exact ih _ (fun r' h' => hnd r' (by simp [h']))

theorem filterMap_objFields (rows : List (List (String × Json))) :
    (rows.map Json.obj).filterMap jsonObjFields = rows := by
  induction rows with
  | nil => rfl
  | cons r rest ih => simp [List.filterMap_cons, jsonObjFields, ih]

theorem filterMap_arrElems (rows : List (List Json)) :
    (rows.map Json.arr).filterMap jsonArrElems = rows := by
  induction rows with
  | nil => rfl
  | cons r rest ih => simp [List.filterMap_cons, jsonArrElems, ih]

theorem padTo_eq_takeD : ∀ (n : Nat) (r : List Json), padTo r n = r.takeD n (Json.str "") := by
  intro n
  induction n with
  | zero => intro r; simp [padTo]
  | succ n ih =>
    intro r
    cases r with
    | nil => simp [padTo, List.take_replicate, List.replicate_succ]
    | cons a r' =>
      unfold padTo
      rw [List.takeD_succ]
      simp only [List.length_cons, List.cons_append, List.take_succ_cons, List.head?_cons,
        Option.getD_some, List.tail_cons]
      congr 1
      have hn : n + 1 - (r'.length + 1) = n - r'.length := by omega
      rw [hn]
      exact ih r'

theorem foldl_max_eq (rows : List (List Json)) : ∀ acc : Nat,
    rows.foldl (fun m r => max m r.length) acc = max acc ((rows.map List.length).foldr max 0) := by
  induction rows with
  | nil => intro acc; simp
  | cons r rest ih =>
    intro acc
    rw [List.foldl_cons, ih, List.map_cons, List.foldr_cons, Nat.max_assoc]

theorem objectRows_render (r0 : List (String × Json)) (rest : List (List (String × Json)))
    (hnd : ∀ r ∈ r0 :: rest, (r.map Prod.fst).Nodup) :
    formatMarkdownTable (Json.arr ((r0 :: rest).map Json.obj)) = specObjectTable (r0 :: rest) := by
  have hall : ((r0 :: rest).map Json.obj).all isPlainObject = true := by
    simp [List.all_eq_true, isPlainObject]
  have hrows : ((r0 :: rest).map Json.obj).filterMap jsonObjFields = r0 :: rest :=
    filterMap_objFields _
  have hcols : computeColumns (r0 :: rest) = specFirstSeenUnion (r0 :: rest) :=
    computeColumns_eq_spec _ hnd
  show formatMarkdownTable (Json.arr (Json.obj r0 :: rest.map Json.obj)) = _
  rw [formatMarkdownTable]
  rw [if_pos (by simpa using hall)]
  rw [show (Json.obj r0 :: rest.map Json.obj) = (r0 :: rest).map Json.obj from rfl]
  simp only [hrows, hcols, specObjectTable]
  have jt : ∀ cols : List String,
      joinTruthy [wrapRow (cols.map escapeMarkdownCell), wrapRow (cols.map (fun _ => "---")),
        joinWith "\n" ((r0 :: rest).map (fun r =>
          wrapRow (cols.map (fun c => escapeMarkdownCell (toCellStringOpt (jsLookup r c))))))] =
      wrapRow (cols.map escapeMarkdownCell) ++ "\n" ++ wrapRow (cols.map (fun _ => "---")) ++
        "\n" ++ joinWith "\n" ((r0 :: rest).map (fun r =>
          wrapRow (cols.map (fun c => escapeMarkdownCell (toCellStringOpt (jsLookup r c)))))) := by
    intro cols
    refine joinTruthy_three (wrapRow_ne_empty _) (wrapRow_ne_empty _) ?_
    rw [List.map_cons]
    exact joinWith_cons_ne_empty _ _ _ (wrapRow_ne_empty _)
  by_cases h0 : specFirstSeenUnion (r0 :: rest) = []
  · rw [if_pos (by simpa [List.isEmpty_iff] using h0), if_pos h0]
    exact jt ["value"]
  · rw [if_neg (by simpa [List.isEmpty_iff] using h0), if_neg h0]
    exact jt _
theorem arrayRows_render (r0 : List Json) (rest : List (List Json)) :
    formatMarkdownTable (Json.arr ((r0 :: rest).map Json.arr)) = specArrayTable (r0 :: rest) := by
  have hnotobj : (((r0 :: rest).map Json.arr).all isPlainObject) = false := by
    simp [isPlainObject]
  have hallarr : (((r0 :: rest).map Json.arr).all jsIsArray) = true := by
    simp [List.all_eq_true, jsIsArray]
  have hrows : ((r0 :: rest).map Json.arr).filterMap jsonArrElems = r0 :: rest :=
    filterMap_arrElems _
  show formatMarkdownTable (Json.arr (Json.arr r0 :: rest.map Json.arr)) = _
  rw [formatMarkdownTable]
  rw [if_neg (by
    rw [show (Json.arr r0 :: rest.map Json.arr) = (r0 :: rest).map Json.arr from rfl, hnotobj]
    simp)]
  rw [if_pos (by simpa using hallarr)]
  rw [show (Json.arr r0 :: rest.map Json.arr) = (r0 :: rest).map Json.arr from rfl]
  simp only [hrows, specArrayTable]
  have hmax : List.foldl (fun m (r : List Json) => max m r.length) 0 (r0 :: rest) =
      List.foldr max 0 (List.map List.length (r0 :: rest)) := by
    rw [foldl_max_eq]
    simp
  have hcond : ((r0 :: rest)[1]?.isSome && decide (0 < ((r0 :: rest).headD []).length) &&
      (match (r0 :: rest)[1]? with
       | some r1 => ((r0 :: rest).headD []).length == r1.length
       | none => false) &&
      ((r0 :: rest).headD []).all isJsonStr) = specHasHeader (r0 :: rest) := by
    cases rest with
    | nil => simp [specHasHeader]
    | cons r1 rest' => simp [specHasHeader]
  rw [hcond, hmax]
  simp only [padTo_eq_takeD, List.map_map]
  have jt : ∀ (cells : List String) (dr : List (List Json)) (hdr : dr ≠ []),
      joinTruthy [wrapRow cells, wrapRow (cells.map (fun _ => "---")),
        joinWith "\n" (dr.map ((fun r =>
            wrapRow (r.map (fun v => escapeMarkdownCell (toCellString v)))) ∘
          (fun r => r.takeD cells.length (Json.str ""))))] =
      wrapRow cells ++ "\n" ++ wrapRow (cells.map (fun _ => "---")) ++ "\n" ++
        joinWith "\n" (dr.map (fun r =>
          wrapRow ((r.takeD cells.length (Json.str "")).map
            (fun v => escapeMarkdownCell (toCellString v))))) := by
    intro cells dr hdr
    have hmm : dr.map ((fun r =>
          wrapRow (r.map (fun v => escapeMarkdownCell (toCellString v)))) ∘
        (fun r => r.takeD cells.length (Json.str ""))) =
        dr.map (fun r => wrapRow ((r.takeD cells.length (Json.str "")).map
          (fun v => escapeMarkdownCell (toCellString v)))) := by
      simp [Function.comp]
    rw [hmm]
    refine joinTruthy_three (wrapRow_ne_empty _) (wrapRow_ne_empty _) ?_
    obtain ⟨d0, dr', rfl⟩ : ∃ d0 dr', dr = d0 :: dr' := by
      cases dr with
      | nil => exact absurd rfl hdr
      | cons a b => exact ⟨a, b, rfl⟩
    rw [List.map_cons]
    exact joinWith_cons_ne_empty _ _ _ (wrapRow_ne_empty _)
  by_cases hH : specHasHeader (r0 :: rest) = true
  · cases rest with
    | nil => simp [specHasHeader] at hH
    | cons r1 rest' =>
      rw [if_pos hH, if_pos hH]
      exact jt _ (List.drop 1 (r0 :: r1 :: rest')) (by simp)
  · rw [if_neg hH, if_neg hH]
    exact jt _ (r0 :: rest) (by simp)

/-! ## Walk lemmas -/

theorem decideAttempt_misconfig (cfg : WalkCfg) (c : String) (i : Nat) (r : Resp)
    (h : isLikelyNetworkMisconfig r = true) :
    decideAttempt cfg c i r = ⟨[], .finish (connectivityHintText cfg (codeOf r))⟩ := by
  cases r with
  | ok d => simp [isLikelyNetworkMisconfig] at h
  | otherErr m => simp [isLikelyNetworkMisconfig] at h
  | axErr resp code msg =>
    simp only [decideAttempt]
    rw [if_pos h]
    rfl

theorem decideAttempt_404 (cfg : WalkCfg) (c : String) (i : Nat) (r : Resp)
    (h : is400or404 r = true) :
    decideAttempt cfg c i r = ⟨[triedRecOf c r], .nextCand⟩ := by
  cases r with
  | ok d => simp [is400or404, statusOfResp] at h
  | otherErr m => simp [is400or404, statusOfResp] at h
  | axErr resp code msg =>
    cases resp with
    | none => simp [is400or404, statusOfResp] at h
    | some ar =>
      have hst : ar.status = 400 ∨ ar.status = 404 := by
        simpa [is400or404, statusOfResp] using h
      simp only [decideAttempt]
      rw [if_neg (by simp [isLikelyNetworkMisconfig])]
      rw [if_pos (by rcases hst with h' | h' <;> simp [statusOfResp, h'])]
      rfl

theorem decideAttempt_transient0 (cfg : WalkCfg) (c : String) (r : Resp)
    (h : shouldRetryOnce r = true) :
    decideAttempt cfg c 0 r = ⟨[triedRecOf c r], .retrySame⟩ := by
  cases r with
  | ok d => simp [shouldRetryOnce] at h
  | otherErr m => simp [shouldRetryOnce] at h
  | axErr resp code msg =>
    cases resp with
    | none => simp [shouldRetryOnce] at h
    | some ar =>
      have hst : (ar.status = 502 ∨ ar.status = 503) ∨ ar.status = 504 := by
        simpa [shouldRetryOnce] using h
      simp only [decideAttempt]
      rw [if_neg (by simp [isLikelyNetworkMisconfig])]
      rw [if_neg (by rcases hst with (h' | h') | h' <;> simp [statusOfResp, h'])]
      rw [if_neg (by rcases hst with (h' | h') | h' <;> simp [statusOfResp, h'])]
      rw [if_pos (by simp [h])]
      rfl

theorem decideAttempt_generic1 (cfg : WalkCfg) (c : String) (r : Resp)
    (h : shouldRetryOnce r = true) :
    decideAttempt cfg c 1 r = ⟨[triedRecOf c r], .finish (genericFailureTextOf r)⟩ := by
  cases r with
  | ok d => simp [shouldRetryOnce] at h
  | otherErr m => simp [shouldRetryOnce] at h
  | axErr resp code msg =>
    cases resp with
    | none => simp [shouldRetryOnce] at h
    | some ar =>
      have hst : (ar.status = 502 ∨ ar.status = 503) ∨ ar.status = 504 := by
        simpa [shouldRetryOnce] using h
      simp only [decideAttempt]
      rw [if_neg (by simp [isLikelyNetworkMisconfig])]
      rw [if_neg (by rcases hst with (h' | h') | h' <;> simp [statusOfResp, h'])]
      rw [if_neg (by rcases hst with (h' | h') | h' <;> simp [statusOfResp, h'])]
      rw [if_neg (by simp)]
      rfl

theorem goWalk_cons_next (cfg : WalkCfg) (lookup : String → Nat → Resp)
    (allCands : List String) (c : String) (rest : List String)
    (trace : List WalkEv) (tried : List TriedRec)
    (h : is400or404 (lookup c 0) = true) :
    goWalk cfg lookup allCands (c :: rest) trace tried =
      goWalk cfg lookup allCands rest (trace ++ [.attempt c 0])
        (tried ++ [triedRecOf c (lookup c 0)]) := by
  rw [goWalk, decideAttempt_404 cfg c 0 _ h]

theorem goWalk_all404 (cfg : WalkCfg) (lookup : String → Nat → Resp)
    (allCands : List String) :
    ∀ (rem : List String) (trace : List WalkEv) (tried : List TriedRec),
    (∀ c ∈ rem, is400or404 (lookup c 0) = true) →
    goWalk cfg lookup allCands rem trace tried =
      ⟨notFoundText cfg allCands, trace ++ rem.map (fun c => .attempt c 0),
        tried ++ rem.map (fun c => triedRecOf c (lookup c 0))⟩ := by
  intro rem
  induction rem with
  | nil => intro trace tried _; simp [goWalk]
  | cons c rest ih =>
    intro trace tried hall
    rw [goWalk_cons_next cfg lookup allCands c rest trace tried (hall c (by simp))]
    rw [ih _ _ (fun c' h' => hall c' (by simp [h']))]
    simp [List.append_assoc]

theorem goWalk_misconfig0 (cfg : WalkCfg) (lookup : String → Nat → Resp)
    (allCands : List String) (c : String) (rest : List String)
    (trace : List WalkEv) (tried : List TriedRec)
    (h : isLikelyNetworkMisconfig (lookup c 0) = true) :
    goWalk cfg lookup allCands (c :: rest) trace tried =
      ⟨connectivityHintText cfg (codeOf (lookup c 0)), trace ++ [.attempt c 0], tried⟩ := by
  rw [goWalk, decideAttempt_misconfig cfg c 0 _ h]
  simp

theorem goWalk_transient_misconfig1 (cfg : WalkCfg) (lookup : String → Nat → Resp)
    (allCands : List String) (c : String) (rest : List String)
    (trace : List WalkEv) (tried : List TriedRec)
    (h0 : shouldRetryOnce (lookup c 0) = true)
    (h1 : isLikelyNetworkMisconfig (lookup c 1) = true) :
    goWalk cfg lookup allCands (c :: rest) trace tried =
      ⟨connectivityHintText cfg (codeOf (lookup c 1)),
        trace ++ [.attempt c 0, .backoff 250, .attempt c 1],
        tried ++ [triedRecOf c (lookup c 0)]⟩ := by
  rw [goWalk, decideAttempt_transient0 cfg c _ h0, decideAttempt_misconfig cfg c 1 _ h1]
  simp

theorem goWalk_transient_generic (cfg : WalkCfg) (lookup : String → Nat → Resp)
    (allCands : List String) (c : String) (rest : List String)
    (trace : List WalkEv) (tried : List TriedRec)
    (h0 : shouldRetryOnce (lookup c 0) = true)
    (h1 : shouldRetryOnce (lookup c 1) = true) :
    goWalk cfg lookup allCands (c :: rest) trace tried =
      ⟨genericFailureTextOf (lookup c 1),
        trace ++ [.attempt c 0, .backoff 250, .attempt c 1],
        tried ++ [triedRecOf c (lookup c 0), triedRecOf c (lookup c 1)]⟩ := by
  rw [goWalk, decideAttempt_transient0 cfg c _ h0, decideAttempt_generic1 cfg c _ h1]
  simp

/-! ## Escaping and candidate-list invariants -/

theorem not_mem_replaceAllChar (p : Char) (rep : List Char) (hrep : p ∉ rep) :
    ∀ l, p ∉ replaceAllChar p rep l := by
  intro l
  induction l with
  | nil => simp [replaceAllChar]
  | cons c rest ih =>
    rw [replaceAllChar]
    by_cases hc : (c == p) = true
    · rw [if_pos hc]
      intro hmem
      rcases List.mem_append.mp hmem with h | h
      · exact hrep h
      · exact ih h
    · rw [if_neg hc]
      intro hmem
      rcases List.mem_cons.mp hmem with h | h
      · exact hc (by simp [h])
      · exact ih h

theorem escapeMarkdownCell_no_newline (s : String) : '\n' ∉ (escapeMarkdownCell s).data := by
  show '\n' ∉ replaceAllChar '\n' "<br>".data
    (replaceAllPair '\r' '\n' "\n".data (replaceAllChar '|' "\\|".data s.data))
  exact not_mem_replaceAllChar '\n' _ (by decide) _

theorem specCandidates_nodup (s : String) : (specCandidates s).Nodup := by
  unfold specCandidates
  set t := jsTrim s
  by_cases h1 : endsWithCI t ".cls" = true
  · rw [if_pos h1]
    refine List.nodup_cons.mpr ⟨?_, List.nodup_singleton _⟩
    simp only [List.mem_singleton]
    apply ne_of_data_length
    rw [String.data_append, String.data_append, List.length_append, List.length_append]
    simp
  · rw [if_neg h1]
    by_cases h2 : (endsWithCI t ".int" || endsWithCI t ".mac" || endsWithCI t ".inc") = true
    · rw [if_pos h2]
      exact List.nodup_singleton _
    · rw [if_neg h2]
      have hab : (t ++ ".1.int") ≠ (t ++ ".int") := by
        apply ne_of_data_length
        rw [String.data_append, String.data_append, List.length_append, List.length_append]
        simp
      have hat : (t ++ ".1.int") ≠ t := by
        apply ne_of_data_length
        rw [String.data_append, List.length_append]
        simp
      have hbt : (t ++ ".int") ≠ t := by
        apply ne_of_data_length
        rw [String.data_append, List.length_append]
        simp
      by_cases ht0 : t = ""
      · rw [if_pos ht0]
        simp [List.nodup_cons, hab]
      · rw [if_neg ht0]
        simp [List.nodup_cons, hab, hat, hbt]

theorem buildCandidates_nodup (s : String) : (buildRoutineDocCandidates s).Nodup := by
  rw [buildCandidates_eq_spec]
  exact specCandidates_nodup s

theorem buildCandidates_ne_nil (s : String) : buildRoutineDocCandidates s ≠ [] := by
  rw [buildCandidates_eq_spec]
  unfold specCandidates
  by_cases h1 : endsWithCI (jsTrim s) ".cls" = true
  · rw [if_pos h1]; simp
  · rw [if_neg h1]
    by_cases h2 : (endsWithCI (jsTrim s) ".int" || endsWithCI (jsTrim s) ".mac" ||
        endsWithCI (jsTrim s) ".inc") = true
    · rw [if_pos h2]; simp
    · rw [if_neg h2]; simp

theorem mem_addCandidate {out : List String} {v c : String}
    (h : c ∈ addCandidate out v) : c ∈ out ∨ (c = jsTrim v ∧ c ≠ "") := by
  simp only [addCandidate] at h
  by_cases h1 : (jsTrim v == "") = true
  · rw [if_pos h1] at h
    exact .inl h
  · rw [if_neg h1] at h
    by_cases h2 : (out.contains (jsTrim v)) = true
    · rw [if_pos h2] at h
      exact .inl h
    · rw [if_neg h2] at h
      rcases List.mem_append.mp h with h' | h'
      · exact .inl h'
      · refine .inr ⟨List.mem_singleton.mp h', ?_⟩
        rw [List.mem_singleton.mp h']
        simpa using h1

theorem buildCandidates_mem_trimmed (s : String) :
    ∀ c ∈ buildRoutineDocCandidates s, c ≠ "" ∧ jsTrim c = c := by
  have step : ∀ (out : List String) (v : String),
      (∀ x ∈ out, x ≠ "" ∧ jsTrim x = x) →
      ∀ x ∈ addCandidate out v, x ≠ "" ∧ jsTrim x = x := by
    intro out v hout x hx
    rcases mem_addCandidate hx with h | ⟨rfl, hne⟩
    · exact hout x h
    · exact ⟨hne, jsTrim_idem v⟩
  have base : ∀ x ∈ ([] : List String), x ≠ "" ∧ jsTrim x = x := by simp
  intro c hc
  unfold buildRoutineDocCandidates at hc
  by_cases h1 : endsWithCI (jsTrim s) ".cls" = true
  · rw [if_pos h1] at hc
    exact step _ _ (step _ _ base) c hc
  · rw [if_neg h1] at hc
    by_cases h2 : (endsWithCI (jsTrim s) ".int" || endsWithCI (jsTrim s) ".mac" ||
        endsWithCI (jsTrim s) ".inc") = true
    · rw [if_pos h2] at hc
      exact step _ _ base c hc
    · rw [if_neg h2] at hc
      exact step _ _ (step _ _ (step _ _ base)) c hc

/-! ## Claim theorems -/

/-- C1, counterexample: the claim's bare-name branch asserts that the result
is exactly the three-element list with the verbatim trimmed input last; for a
whitespace-only input (trimmed to the empty string) the code drops the empty
verbatim candidate, so the claim as stated is false at the input " ". -/
theorem c1_counterexample :
    buildRoutineDocCandidates " " ≠
      [jsTrim " " ++ ".1.int", jsTrim " " ++ ".int", jsTrim " "] := by
  decide

/-- C1 (amended): after trimming, a name ending in ".cls" (case-insensitive)
yields exactly the two candidates stem ++ ".1.int" and stem ++ ".int" in that
order; a name ending in ".int", ".mac" or ".inc" (case-insensitive) yields
exactly the trimmed input; otherwise the result is trimmed ++ ".1.int",
trimmed ++ ".int", followed by the verbatim trimmed input only when that is
non-empty; duplicates by exact string equality are skipped.  In particular
the "Pkg.Class.cls" and "Foo.Bar" instances hold as claimed. -/
theorem c1_candidate_policy :
    (∀ s : String, buildRoutineDocCandidates s = specCandidates s) ∧
    buildRoutineDocCandidates "Pkg.Class.cls" = ["Pkg.Class.1.int", "Pkg.Class.int"] ∧
    buildRoutineDocCandidates "Foo.Bar" = ["Foo.Bar.1.int", "Foo.Bar.int", "Foo.Bar"] :=
  ⟨buildCandidates_eq_spec, by decide, by decide⟩

/-- C2: for every non-empty array of plain objects (with the JavaScript-object
invariant of duplicate-free keys per row), the rendered table has exactly the
first-seen union of keys as header (or the synthetic "value" column), one
separator row, and one body row per input element whose cell at column k is
the escaped stringification of that row's value at k, empty when absent. -/
theorem c2_object_rows_table (rows : List (List (String × Json))) (hne : rows ≠ [])
    (hnd : ∀ r ∈ rows, (r.map Prod.fst).Nodup) :
    formatMarkdownTable (Json.arr (rows.map Json.obj)) = specObjectTable rows := by
  obtain ⟨r0, rest, rfl⟩ := List.exists_cons_of_ne_nil hne
  exact objectRows_render r0 rest hnd

/-- C2, witness at a concrete two-row instance with disjoint keys. -/
theorem c2_witness :
    ([[("a", Json.str "x")], [("b", Json.null)]] : List (List (String × Json))) ≠ [] ∧
    formatMarkdownTable (Json.arr ([[("a", Json.str "x")],
        [("b", Json.null)]].map Json.obj)) =
      specObjectTable [[("a", Json.str "x")], [("b", Json.null)]] :=
  ⟨by simp, c2_object_rows_table _ (by simp) (by decide)⟩

/-- C3: for every non-empty array of arrays the renderer infers the header
from the first row exactly when a second row exists, the first row is
non-empty and of the second row's length, and all first-row cells are
strings; otherwise it synthesizes col1..colN with N = max(maxLen, 1); every
data row is right-padded with empty-string cells and truncated to the header
width. -/
theorem c3_array_rows_table (rows : List (List Json)) (hne : rows ≠ []) :
    formatMarkdownTable (Json.arr (rows.map Json.arr)) = specArrayTable rows := by
  obtain ⟨r0, rest, rfl⟩ := List.exists_cons_of_ne_nil hne
  exact arrayRows_render r0 rest

/-- C3, witness at a concrete instance whose first row fails the header
inference (unequal lengths). -/
theorem c3_witness :
    ([[Json.str "h1", Json.str "h2"], [Json.num 1]] : List (List Json)) ≠ [] ∧
    formatMarkdownTable (Json.arr ([[Json.str "h1", Json.str "h2"],
        [Json.num 1]].map Json.arr)) =
      specArrayTable [[Json.str "h1", Json.str "h2"], [Json.num 1]] :=
  ⟨by simp, c3_array_rows_table _ (by simp)⟩

/-- C4: the renderer is total by construction (a Lean function); the empty
array renders as the literal empty-result marker, and every non-array input
renders as the labeled diagnostic string embedding the summarizer's output,
which is never empty. -/
theorem c4_render_total (v : Json) (hv : jsIsArray v = false) :
    formatMarkdownTable (Json.arr []) = "_(empty result)_" ∧
    formatMarkdownTable v = "Unrecognized SQL response format:\n" ++ extractVersionInfo v ∧
    0 < (formatMarkdownTable v).length := by
  have heq : formatMarkdownTable v =
      "Unrecognized SQL response format:\n" ++ extractVersionInfo v := by
    cases v with
    | arr l => simp [jsIsArray] at hv
    | null => rfl
    | bool b => rfl
    | num n => rfl
    | str s => rfl
    | obj fields => rfl
  refine ⟨rfl, heq, ?_⟩
  rw [heq]
  have hlen : ("Unrecognized SQL response format:\n" ++ extractVersionInfo v).length =
      ("Unrecognized SQL response format:\n").length + (extractVersionInfo v).length := by
    show (("Unrecognized SQL response format:\n" ++ extractVersionInfo v).data).length = _
    rw [String.data_append, List.length_append]
    rfl
  rw [hlen]
  have h1 : 0 < ("Unrecognized SQL response format:\n").length := by decide
  omega

/-- C4, witness at the null body. -/
theorem c4_witness :
    jsIsArray Json.null = false ∧
    formatMarkdownTable Json.null =
      "Unrecognized SQL response format:\n" ++ extractVersionInfo Json.null :=
  ⟨rfl, (c4_render_total Json.null rfl).2.1⟩

/-- C5: at any point of the walk, when the current candidate's first attempt
fails with a transient 502/503/504, the same candidate is retried exactly
once after the 250 ms backoff; when the second attempt is again a transient
5xx, the whole walk ends with the generic HTTP-failure message, both attempts
recorded, and no event for any later candidate. -/
theorem c5_transient_retry_abort (cfg : WalkCfg) (lookup : String → Nat → Resp)
    (c : String) (rest allCands : List String)
    (trace : List WalkEv) (tried : List TriedRec)
    (h0 : shouldRetryOnce (lookup c 0) = true)
    (h1 : shouldRetryOnce (lookup c 1) = true) :
    goWalk cfg lookup allCands (c :: rest) trace tried =
      ⟨genericFailureTextOf (lookup c 1),
        trace ++ [.attempt c 0, .backoff 250, .attempt c 1],
        tried ++ [triedRecOf c (lookup c 0), triedRecOf c (lookup c 1)]⟩ :=
  goWalk_transient_generic cfg lookup allCands c rest trace tried h0 h1

/-- C5, witness: a lookup answering 503 twice stops the walk after the single
backed-off retry, with the remaining candidates untouched. -/
theorem c5_witness :
    shouldRetryOnce (wLookup503 "A.1.int" 0) = true ∧
    goWalk wCfg wLookup503 ["A.1.int", "A.int", "A"] ["A.1.int", "A.int", "A"] [] [] =
      ⟨genericFailureTextOf (wLookup503 "A.1.int" 1),
        [.attempt "A.1.int" 0, .backoff 250, .attempt "A.1.int" 1],
        [triedRecOf "A.1.int" (wLookup503 "A.1.int" 0),
         triedRecOf "A.1.int" (wLookup503 "A.1.int" 1)]⟩ :=
  ⟨by decide,
   c5_transient_retry_abort wCfg wLookup503 "A.1.int" ["A.int", "A"]
     ["A.1.int", "A.int", "A"] [] [] (by decide) (by decide)⟩

/-- C6: a 400/404 answer records the attempt and moves on without a retry;
when every candidate answers 400/404 the tool's text is the not-found message
whose middle section lists every attempted candidate, one per line, each
prefixed by a dash, in attempt order, with exactly one recorded attempt per
candidate. -/
theorem c6_not_found_enumerates (cfg : WalkCfg) (lookup : String → Nat → Resp)
    (name : String)
    (h : ∀ c ∈ buildRoutineDocCandidates name, is400or404 (lookup c 0) = true) :
    (getIrisRoutine cfg lookup name).text =
      "未找到对应的 routine 文档。\n已尝试以下名称：\n" ++
        joinWith "\n" ((buildRoutineDocCandidates name).map (fun c => "- " ++ c)) ++
        "\n\n请确认：\n- 类已编译（会生成 *.1.int）\n- namespace 正确：" ++
        cfg.resolvedNamespace ∧
    (getIrisRoutine cfg lookup name).trace =
      (buildRoutineDocCandidates name).map (fun c => .attempt c 0) ∧
    (getIrisRoutine cfg lookup name).tried =
      (buildRoutineDocCandidates name).map (fun c => triedRecOf c (lookup c 0)) := by
  have hg : getIrisRoutine cfg lookup name =
      ⟨notFoundText cfg (buildRoutineDocCandidates name),
        [] ++ (buildRoutineDocCandidates name).map (fun c => .attempt c 0),
        [] ++ (buildRoutineDocCandidates name).map (fun c => triedRecOf c (lookup c 0))⟩ :=
    goWalk_all404 cfg lookup (buildRoutineDocCandidates name)
      (buildRoutineDocCandidates name) [] [] h
  rw [hg]
  exact ⟨rfl, by simp, by simp⟩

/-- C6, witness: the all-404 lookup on the bare name "Foo.Bar". -/
theorem c6_witness :
    (getIrisRoutine wCfg wLookup404 "Foo.Bar").text =
      "未找到对应的 routine 文档。\n已尝试以下名称：\n" ++
        joinWith "\n" ((buildRoutineDocCandidates "Foo.Bar").map (fun c => "- " ++ c)) ++
        "\n\n请确认：\n- 类已编译（会生成 *.1.int）\n- namespace 正确：" ++
        wCfg.resolvedNamespace :=
  (c6_not_found_enumerates wCfg wLookup404 "Foo.Bar" (by decide)).1

/-- C7: a lookup failure with no HTTP response and a recognized network error
code aborts the walk at once with the connectivity hint: this holds for the
first attempt of the current candidate (no retry of it, no event for any
remaining candidate) and equally for its second attempt after a transient
first one. -/
theorem c7_network_misconfig_abort (cfg : WalkCfg) (lookup : String → Nat → Resp)
    (c : String) (rest allCands : List String)
    (trace : List WalkEv) (tried : List TriedRec) :
    (isLikelyNetworkMisconfig (lookup c 0) = true →
      goWalk cfg lookup allCands (c :: rest) trace tried =
        ⟨connectivityHintText cfg (codeOf (lookup c 0)), trace ++ [.attempt c 0], tried⟩) ∧
    (shouldRetryOnce (lookup c 0) = true → isLikelyNetworkMisconfig (lookup c 1) = true →
      goWalk cfg lookup allCands (c :: rest) trace tried =
        ⟨connectivityHintText cfg (codeOf (lookup c 1)),
          trace ++ [.attempt c 0, .backoff 250, .attempt c 1],
          tried ++ [triedRecOf c (lookup c 0)]⟩) :=
  ⟨fun h => goWalk_misconfig0 cfg lookup allCands c rest trace tried h,
   fun h0 h1 => goWalk_transient_misconfig1 cfg lookup allCands c rest trace tried h0 h1⟩

/-- C7, witness: a refused connection on the very first attempt ends the walk
after exactly one attempt, with two candidates still pending. -/
theorem c7_witness :
    isLikelyNetworkMisconfig (wLookupRefused "A.1.int" 0) = true ∧
    goWalk wCfg wLookupRefused ["A.1.int", "A.int", "A"] ["A.1.int", "A.int", "A"] [] [] =
      ⟨connectivityHintText wCfg (codeOf (wLookupRefused "A.1.int" 0)),
        [.attempt "A.1.int" 0], []⟩ :=
  ⟨by decide,
   (c7_network_misconfig_abort wCfg wLookupRefused "A.1.int" ["A.int", "A"]
     ["A.1.int", "A.int", "A"] [] []).1 (by decide)⟩

/-- C8: cell escaping is the pipe-escape, CRLF-normalize, newline-to-br
pipeline; its output never contains a newline character, and the cell
"a|b\nc" escapes to "a\|b<br>c". -/
theorem c8_cell_escaping (s : String) :
    escapeMarkdownCell s =
      String.mk (replaceAllChar '\n' "<br>".data
        (replaceAllPair '\r' '\n' "\n".data (replaceAllChar '|' "\\|".data s.data))) ∧
    (escapeMarkdownCell s).data.contains '\n' = false ∧
    escapeMarkdownCell "a|b\nc" = "a\\|b<br>c" := by
  refine ⟨rfl, ?_, by decide⟩
  simpa [List.contains, List.elem_eq_mem] using escapeMarkdownCell_no_newline s

/-- C9: the resolver's output never holds the same name twice and is
non-empty for non-empty input; in an exhausting not-found walk each candidate
is probed exactly once, in order, so no URL is probed twice. -/
theorem c9_resolver_walk_invariants :
    (∀ s : String, (buildRoutineDocCandidates s).Nodup) ∧
    (∀ s : String, s ≠ "" → buildRoutineDocCandidates s ≠ []) ∧
    (∀ (cfg : WalkCfg) (lookup : String → Nat → Resp) (name : String),
      (∀ c ∈ buildRoutineDocCandidates name, is400or404 (lookup c 0) = true) →
      (getIrisRoutine cfg lookup name).trace =
        (buildRoutineDocCandidates name).map (fun c => WalkEv.attempt c 0) ∧
      (getIrisRoutine cfg lookup name).trace.Nodup) := by
  refine ⟨buildCandidates_nodup, fun s _ => buildCandidates_ne_nil s, ?_⟩
  intro cfg lookup name h
  have hg : getIrisRoutine cfg lookup name =
      ⟨notFoundText cfg (buildRoutineDocCandidates name),
        [] ++ (buildRoutineDocCandidates name).map (fun c => WalkEv.attempt c 0),
        [] ++ (buildRoutineDocCandidates name).map (fun c => triedRecOf c (lookup c 0))⟩ :=
    goWalk_all404 cfg lookup (buildRoutineDocCandidates name)
      (buildRoutineDocCandidates name) [] [] h
  rw [hg]
  refine ⟨by simp, ?_⟩
  simp only [List.nil_append]
  refine List.Nodup.map ?_ (buildCandidates_nodup name)
  intro a b hab
  injection hab

/-- C9, witness: the three candidates of "Foo.Bar" under an all-404 lookup
are each probed once. -/
theorem c9_witness :
    buildRoutineDocCandidates "Foo.Bar" ≠ [] ∧
    (getIrisRoutine wCfg wLookup404 "Foo.Bar").trace =
      (buildRoutineDocCandidates "Foo.Bar").map (fun c => WalkEv.attempt c 0) :=
  ⟨c9_resolver_walk_invariants.2.1 "Foo.Bar" (by decide),
   (c9_resolver_walk_invariants.2.2 wCfg wLookup404 "Foo.Bar" (by decide)).1⟩

/-- C10: every produced candidate is non-empty and trim-stable (no leading or
trailing whitespace), and a whitespace-only non-empty input loses its
verbatim last-resort candidate, leaving exactly [".1.int", ".int"]. -/
theorem c10_candidate_hygiene (s : String) :
    (∀ c ∈ buildRoutineDocCandidates s, c ≠ "" ∧ jsTrim c = c) ∧
    (s ≠ "" → jsTrim s = "" → buildRoutineDocCandidates s = [".1.int", ".int"]) := by
  refine ⟨buildCandidates_mem_trimmed s, fun _ hts => ?_⟩
  rw [buildCandidates_eq_spec]
  unfold specCandidates
  rw [hts]
  decide

/-- C10, witness: the single-space input. -/
theorem c10_witness :
    (" " : String) ≠ "" ∧ jsTrim " " = "" ∧
    buildRoutineDocCandidates " " = [".1.int", ".int"] :=
  ⟨by decide, by decide, (c10_candidate_hygiene " ").2 (by decide) (by decide)⟩

end IrisMcp
